import Mathlib

set_option maxHeartbeats 1000000

/-!
Shallow embedding of the sourcegraph symbols service bootstrap
(`cmd/symbols`), the frontend app URL router, and the sandboxed
command-execution microservice (`sandbox/knative/execserver`), together
with spec-modelled definitions of the extraction-and-cache core (disk
cache with LRU eviction, single-flight `getOrCompute`, worker-adapter
`parse`, extraction pipeline), whose implementation is not among the
provided source files.
-/

namespace ExecServer

/-- Result of running one command, mirroring `CommandResult` in
`exec_server.go`: `combinedOutput`, `ok`, `error` (empty string when
the Go zero value is kept). -/
structure CommandResult where
  combinedOutput : String
  ok : Bool
  error : String
  deriving Repr, DecidableEq

/-- Request parameters, mirroring `Params` in `exec_server.go`. -/
structure Params where
  archiveURL : String
  dir : String
  commands : List (List String)
  includeFiles : List String
  deriving Repr, DecidableEq

/-- POST body payload, mirroring `Payload` in `exec_server.go`
(`files` maps path to content). -/
structure Payload where
  files : List (String × String)
  deriving Repr, DecidableEq

/-- Response, mirroring `Result` in `exec_server.go`. -/
structure ExecResult where
  commands : List CommandResult
  files : List (String × String)
  deriving Repr, DecidableEq

/-- Outcome of `cmd.CombinedOutput()` for one command: the combined
output bytes and, on failure, the error message. -/
structure RunOutcome where
  output : String
  err : Option String
  deriving Repr, DecidableEq

/-- Outcome of reading one include file from disk
(`ioutil.ReadFile` at the end of `handler`). -/
inductive ReadOutcome where
  | notExist
  | failed (msg : String)
  | content (data : String)
  deriving Repr, DecidableEq

/-- The per-command loop of `handler` (exec_server.go lines 175-185):
each command is run, `Error` is set only when the run failed (with the
" (command: ...)" suffix appended by `fmt.Sprintf`), `CombinedOutput`
is always recorded, and `Ok` is `err == nil`. `run` abstracts
`exec.Command(args[0], args[1:]...).CombinedOutput()`; `argsRepr`
abstracts the `%v` formatting of the args slice. -/
def runCommands (run : List String → RunOutcome) (argsRepr : List String → String)
    (cmds : List (List String)) : List CommandResult :=
  cmds.map fun args =>
    let o := run args
    { combinedOutput := o.output
      ok := o.err.isNone
      error := match o.err with
        | none => ""
        | some e => e ++ " (command: " ++ argsRepr args ++ ")" }

/-- The include-file loop of `handler` (lines 187-199): a missing file
is skipped, any other read error aborts with 500, otherwise the
content is recorded under the cleaned name. -/
def collectFiles (readFile : String → ReadOutcome) : List String → Except (Nat × String) (List (String × String))
  | [] => .ok []
  | f :: rest =>
    match readFile f with
    | .notExist => collectFiles readFile rest
    | .failed e => .error (500, e)
    | .content data =>
      match collectFiles readFile rest with
      | .error err => .error err
      | .ok acc => .ok ((f, data) :: acc)

/-- The control flow of `handler` in `exec_server.go`, up to and
including command execution. I/O effects are abstracted as inputs:
`paramsParse` is the result of `json.Unmarshal` on the `params` query
parameter, `bodyParse` the result of decoding the POST body, `setup`
the combined outcome of temp-dir creation, archive fetch/unpack,
payload file writes and the `.git` fake-up (lines 71-168), `run` the
execution of one command, and `readFile` the reading of one include
file. On the error path the result is the HTTP status and message
passed to `http.Error`. -/
def handler (method : String) (paramsParse : Except String Params)
    (bodyParse : Except String Payload) (setup : Except String Unit)
    (run : List String → RunOutcome) (argsRepr : List String → String)
    (readFile : String → ReadOutcome) : Except (Nat × String) ExecResult :=
  if method ≠ "GET" ∧ method ≠ "POST" then .error (405, "")
  else
    match paramsParse with
    | .error e => .error (400, e)
    | .ok params =>
      match if method = "POST" then bodyParse.map fun p => some p else .ok none with
      | .error e => .error (400, e)
      | .ok _payload =>
        if params.commands = [] then .error (400, "invalid params")
        else
          match setup with
          | .error e => .error (500, e)
          | .ok () =>
            match collectFiles readFile params.includeFiles with
            | .error err => .error err
            | .ok files => .ok { commands := runCommands run argsRepr params.commands, files := files }

/-- Concrete parameters used to exercise the handler theorems. -/
def demoParams : Params :=
  { archiveURL := "", dir := "", commands := [["true"]], includeFiles := [] }

/-- A run function whose single command succeeds. -/
def demoRun : List String → RunOutcome := fun _ => { output := "ok", err := none }

/-- A fixed rendering of command args. -/
def demoArgsRepr : List String → String := fun _ => "[true]"

/-- A read function reporting every include file missing. -/
def demoReadFile : String → ReadOutcome := fun _ => .notExist

/-- The response the handler produces for `demoParams` with `demoRun`. -/
def demoResult : ExecResult :=
  { commands := [{ combinedOutput := "ok", ok := true, error := "" }], files := [] }

end ExecServer

namespace SymbolsMain

/-- `badRequestError` from the symbols `main` package: wraps a message
string. -/
structure badRequestError where
  msg : String
  deriving Repr, DecidableEq

/-- `func (e badRequestError) Error() string { return e.msg }` -/
def badRequestError.goError (e : badRequestError) : String := e.msg

/-- `func (e badRequestError) BadRequest() bool { return true }` -/
def badRequestError.BadRequest (_e : badRequestError) : Bool := true

/-- Decimal digit value of a character, or `none`. -/
def digitVal (c : Char) : Option Nat :=
  if '0' ≤ c ∧ c ≤ '9' then some (c.toNat - '0'.toNat) else none

/-- Value of a nonempty all-decimal digit string, or `none`. -/
def digitsVal : List Char → Option Nat
  | [] => none
  | [c] => digitVal c
  | c :: rest =>
    match digitVal c, digitsVal rest with
    | some d, some n => some (d * 10 ^ rest.length + n)
    | _, _ => none

/-- Model of Go `strconv.ParseInt(s, 10, 64)`: optional leading sign,
then decimal digits; `none` when the syntax is invalid or the value
falls outside the signed 64-bit range (Go reports `ErrRange` there,
which `main` treats the same way: `log.Fatalf`). -/
def parseInt64 (s : String) : Option Int :=
  match s.toList with
  | [] => none
  | '+' :: rest =>
    match digitsVal rest with
    | none => none
    | some n => if (n : Int) ≤ 2 ^ 63 - 1 then some (n : Int) else none
  | '-' :: rest =>
    match digitsVal rest with
    | none => none
    | some n => if (n : Int) ≤ 2 ^ 63 then some (-(n : Int)) else none
  | cs =>
    match digitsVal cs with
    | none => none
    | some n => if (n : Int) ≤ 2 ^ 63 - 1 then some (n : Int) else none

/-- Reduce an integer into the signed 64-bit range by two's-complement
wrap-around, the semantics Go gives an overflowing `int64` operation. -/
def wrap64 (n : Int) : Int :=
  let r := n % 2 ^ 64
  if r < 2 ^ 63 then r else r - 2 ^ 64

/-- Go `int64` multiplication: the exact product wrapped into the
signed 64-bit range. -/
def int64Mul (a b : Int) : Int := wrap64 (a * b)

/-- The default value of the `SYMBOLS_CACHE_SIZE_MB` environment
variable, from `env.Get("SYMBOLS_CACHE_SIZE_MB", "0", ...)`. -/
def cacheSizeMBDefault : String := "0"

/-- The `MaxCacheSizeBytes` computation of `main`
(`service.MaxCacheSizeBytes = mb * 1000 * 1000` after
`strconv.ParseInt(cacheSizeMB, 10, 64)`); `none` is the
`log.Fatalf` path. Go evaluates `mb * 1000 * 1000` left to right in
`int64` arithmetic, hence the two wrapped multiplications. -/
def maxCacheSizeBytes (cacheSizeMB : String) : Option Int :=
  (parseInt64 cacheSizeMB).map fun mb => int64Mul (int64Mul mb 1000) 1000

/-- Model of Go `strconv.Atoi` on a 64-bit platform
(`ParseInt(s, 10, 0)` with `int` being 64 bits wide). -/
def parseGoInt (s : String) : Option Int := parseInt64 s

/-- Outcome of process startup: either a fatal log-and-exit before any
request is served, or a serving state carrying the configured values. -/
inductive StartupResult where
  | fatal (msg : String)
  | serving (maxCacheSizeBytes : Int) (numParserProcesses : Int)
  deriving Repr, DecidableEq

/-- `StartupResult.fatal` recogniser. -/
def StartupResult.isFatal : StartupResult → Bool
  | .fatal _ => true
  | .serving _ _ => false

/-- The configuration phase of `main` (part_000 lines 67-78): parse
`SYMBOLS_CACHE_SIZE_MB` (fatal on error), parse `CTAGS_PROCESSES`
(fatal on error), then `service.Start()` (fatal on error).
`startErr` abstracts the outcome of `service.Start()`, whose
implementation is not among the source files; per the spec it fails
when the tagging-tool path or cache directory is unusable. Only after
all three succeed does `main` install the HTTP handler and serve. -/
def mainStartup (cacheSizeMB ctagsProcesses : String) (startErr : Option String) :
    StartupResult :=
  match parseInt64 cacheSizeMB with
  | none => .fatal "Invalid SYMBOLS_CACHE_SIZE_MB"
  | some mb =>
    match parseGoInt ctagsProcesses with
    | none => .fatal "Invalid CTAGS_PROCESSES"
    | some n =>
      match startErr with
      | some e => .fatal e
      | none => .serving (int64Mul (int64Mul mb 1000) 1000) n

end SymbolsMain

namespace AppRouter

/-- Model of Go `url.URL` as far as the router uses it: the zero value
(`url.URL{}`) is the structure with every field empty. -/
structure GoURL where
  scheme : String
  host : String
  path : String
  rawQuery : String
  deriving Repr, DecidableEq

/-- The zero `url.URL` value. -/
def zeroURL : GoURL := ⟨"", "", "", ""⟩

/-- One registered mux route, abstracted to its URL-building behaviour:
`route.URL(params...)` either produces a URL or fails. -/
structure Route where
  buildURL : List String → Except String GoURL

/-- A router is a mapping from route name to registered route;
`r.Get(name)` returns `none` for an unregistered name. -/
def Router := String → Option Route

/-- `URLToOrError` (part_001 lines 229-239): `log.Panicf` when the
route name is unregistered (modelled as the outer `none`), otherwise
the result of `route.URL(params...)`. -/
def URLToOrError (r : Router) (routeName : String) (params : List String) :
    Option (Except String GoURL) :=
  match r routeName with
  | none => none
  | some route => some (route.buildURL params)

/-- `URLTo` (part_001 lines 241-251). The outer `none` models a panic:
either the `log.Panicf` for an unregistered route, or — when
`STRICT_URL_GEN` is set and URL generation failed — the nil-pointer
dereference of `*u` in the strict-mode condition (on the error path
`URLToOrError` returned `u = nil`; Go short-circuit `&&` reaches `*u`
exactly when `os.Getenv("STRICT_URL_GEN") != ""`). When the variable
is unset, a generation failure is logged and `&url.URL{}` returned. -/
def URLTo (strictURLGen : String) (r : Router) (routeName : String)
    (params : List String) : Option GoURL :=
  match URLToOrError r routeName params with
  | none => none
  | some (.ok u) => some u
  | some (.error _) => if strictURLGen ≠ "" then none else some zeroURL

/-- A two-route router used to exercise `URLTo`: "home" generates a
URL, "broken" fails URL generation. -/
def demoRouter : Router := fun name =>
  if name = "home" then some ⟨fun _ => .ok ⟨"https", "example.com", "/", ""⟩⟩
  else if name = "broken" then some ⟨fun _ => .error "generation failed"⟩
  else none

end AppRouter

namespace DiskCache

/-- Modelled from the spec: `CacheEntry` of the Disk Cache (§3), whose
implementation is not among the source files — key, size in bytes,
last-access timestamp (serialized bytes elided: eviction reads only
size and recency). -/
structure CacheEntry where
  key : String
  size : Nat
  lastAccess : Nat
  deriving Repr, DecidableEq

/-- Total size of a set of cache entries, in bytes. -/
def totalSize (es : List CacheEntry) : Nat := (es.map (·.size)).sum

/-- Recency order: `a` was accessed no later than `b`. -/
def lruLE (a b : CacheEntry) : Prop := a.lastAccess ≤ b.lastAccess

instance : DecidableRel lruLE := fun a b => Nat.decLe a.lastAccess b.lastAccess

instance : IsTotal CacheEntry lruLE := ⟨fun a b => Nat.le_total a.lastAccess b.lastAccess⟩

instance : IsTrans CacheEntry lruLE := ⟨fun _ _ _ h h2 => Nat.le_trans h h2⟩

/-- Modelled from the spec: the eviction pass "orders by last-access
timestamp ascending" (§4.1). -/
def sortByAccess (es : List CacheEntry) : List CacheEntry := es.insertionSort lruLE

/-- Modelled from the spec: the deletion loop of the eviction pass
"deletes entries until total size is at or below the configured
maximum" (§4.1), taking entries in last-access-ascending order, i.e.
least-recently-accessed first. -/
def evictLoop (max : Int) : List CacheEntry → List CacheEntry
  | [] => []
  | e :: rest =>
    if (totalSize (e :: rest) : Int) ≤ max then e :: rest else evictLoop max rest

/-- Modelled from the spec: one background eviction pass (§4.1): "If
the maximum is configured as zero or negative, eviction is disabled";
otherwise it lists all entries, orders by last-access ascending, and
deletes from the least recent until the total is within the bound. -/
def runEviction (max : Int) (es : List CacheEntry) : List CacheEntry :=
  if max ≤ 0 then es else evictLoop max (sortByAccess es)

/-- Modelled from the spec: a cache write records the new entry and
does not evict inline ("not inline with every write, to keep write
latency low", §4.1), so the total may transiently exceed the bound. -/
def cacheWrite (e : CacheEntry) (es : List CacheEntry) : List CacheEntry := e :: es

end DiskCache

namespace Extraction

/-- A code symbol (§3): name, kind, file path, position, optional
signature text. -/
structure Symbol where
  name : String
  kind : String
  path : String
  line : Nat
  character : Nat
  signature : Option String
  deriving Repr, DecidableEq

/-- An ordered list of symbols for one snapshot (§3). -/
abbrev SymbolList := List Symbol

/-- What the external tagging tool does with one file: a structured
symbol response, or a binary/unparseable file. -/
inductive FileOutcome where
  | symbols (syms : List Symbol)
  | unparseable
  deriving Repr, DecidableEq

/-- One regular file entry of a snapshot: its path (relative to the
snapshot root) and how the tagging tool responds to its content. -/
structure SourceFile where
  path : String
  outcome : FileOutcome
  deriving Repr, DecidableEq

/-- Modelled from the spec: the Worker Protocol Adapter `parse` of
§4.3, whose implementation is not among the source files: "Binary or
unparseable files yield an empty SymbolList, not an error"; otherwise
the decoded symbols are returned in tool order. -/
def parseFile : FileOutcome → SymbolList
  | .symbols syms => syms
  | .unparseable => []

/-- Lexicographic order on file paths (§4.4: "files are processed in
lexicographic path order"). -/
def pathLE (a b : SourceFile) : Prop := a.path ≤ b.path

instance : DecidableRel pathLE := fun a b => inferInstanceAs (Decidable (a.path ≤ b.path))

instance : IsTotal SourceFile pathLE := ⟨fun a b => le_total a.path b.path⟩

instance : IsTrans SourceFile pathLE := ⟨fun _ _ _ h h2 => le_trans h h2⟩

/-- Deterministic file-iteration order of the pipeline (§4.4). -/
def sortFiles (fs : List SourceFile) : List SourceFile := fs.insertionSort pathLE

/-- Modelled from the spec: the Extraction Pipeline `extract` of §4.4,
whose implementation is not among the source files: if snapshot
retrieval fails, the extraction fails immediately with that error and
nothing is written; otherwise files are processed in lexicographic
path order and each file's parsed symbols are appended in order — a
per-file parse failure contributes no symbols and does not abort the
extraction. -/
def extract (fetch : Except String (List SourceFile)) : Except String SymbolList :=
  match fetch with
  | .error e => .error e
  | .ok files => .ok ((sortFiles files).flatMap fun f => parseFile f.outcome)

/-- A snapshot used to exercise the pipeline theorems: three files, of
which `b.go` is unparseable. -/
def demoFiles : List SourceFile :=
  [⟨"c.go", .symbols [⟨"Main", "function", "c.go", 3, 1, none⟩]⟩,
   ⟨"b.go", .unparseable⟩,
   ⟨"a.go", .symbols [⟨"Run", "function", "a.go", 10, 1, none⟩]⟩]

end Extraction

namespace SingleFlight

/-- Cache keys: the SnapshotKey, rendered as the deterministic string
the cache names entries by. -/
abbrev Key := String

/-- An identifier for one logical caller of `getOrCompute`. -/
abbrev Caller := Nat

/-- Outcome of one computation: a SymbolList or an error. -/
abbrev Outcome := Except String Extraction.SymbolList

/-- Modelled from the spec: the shared state of the Disk Cache's
single-flight `getOrCompute` (§4.1, §5, §9), whose implementation is
not among the source files: the cache index (key to stored result),
the single-flight job table (key to the in-flight ExtractionJob's
waiters), the outcomes delivered to callers, and a ghost log of
`computeFn` invocations. -/
structure SFState where
  cache : List (Key × Extraction.SymbolList)
  jobs : List (Key × List Caller)
  delivered : List (Caller × Key × Outcome)
  computes : List Key
  deriving Repr

/-- Add a waiter to the in-flight job for `k`. -/
def addWaiter (k : Key) (c : Caller) : List (Key × List Caller) → List (Key × List Caller)
  | [] => []
  | (k2, ws) :: rest =>
    if k2 = k then (k2, c :: ws) :: rest else (k2, ws) :: addWaiter k c rest

/-- Remove the job-table entry for `k` ("entries removed as soon as the
computation publishes its outcome", §5). -/
def removeJob (k : Key) (jobs : List (Key × List Caller)) : List (Key × List Caller) :=
  jobs.filter fun p => p.1 != k

/-- Events of the `getOrCompute` protocol, one per atomic transition
of the shared state. -/
inductive SFEvent where
  | hit (c : Caller) (k : Key) (v : Extraction.SymbolList)
  | join (c : Caller) (k : Key)
  | start (c : Caller) (k : Key)
  | finish (k : Key) (o : Outcome)
  deriving Repr

/-- Modelled from the spec: the transitions of `getOrCompute` (§4.1):
a caller whose key has a valid entry returns it at once (`hit`); a
caller whose key has an in-flight job joins its waiters (`join`); a
caller whose key has neither invokes `computeFn` and creates the job
with itself as sole waiter (`start`, logged in `computes`); when the
single computation finishes (`finish`), every waiter receives the one
outcome, a success is written to the index before waiters are
released, an error is not cached, and the job-table entry is
removed. -/
inductive SFStep : SFState → SFEvent → SFState → Prop where
  | hit {s : SFState} {c : Caller} {k : Key} {v : Extraction.SymbolList} :
      s.cache.lookup k = some v →
      SFStep s (.hit c k v) { s with delivered := (c, k, .ok v) :: s.delivered }
  | join {s : SFState} {c : Caller} {k : Key} {ws : List Caller} :
      s.jobs.lookup k = some ws →
      SFStep s (.join c k) { s with jobs := addWaiter k c s.jobs }
  | start {s : SFState} {c : Caller} {k : Key} :
      s.cache.lookup k = none →
      s.jobs.lookup k = none →
      SFStep s (.start c k) { s with jobs := (k, [c]) :: s.jobs, computes := k :: s.computes }
  | finish {s : SFState} {k : Key} {o : Outcome} {ws : List Caller} :
      s.jobs.lookup k = some ws →
      SFStep s (.finish k o)
        { s with
          jobs := removeJob k s.jobs
          cache := match o with | .ok v => (k, v) :: s.cache | .error _ => s.cache
          delivered := ws.map (fun c => (c, k, o)) ++ s.delivered }

/-- The state at process start: empty cache, no jobs. -/
def initState : SFState := ⟨[], [], [], []⟩

/-- States reachable from the initial state by protocol steps. -/
inductive SFReach : SFState → Prop where
  | init : SFReach initState
  | step {s : SFState} {e : SFEvent} {s2 : SFState} :
      SFReach s → SFStep s e s2 → SFReach s2

/-- A concrete reachable state used to exercise the theorems: caller 0
has started a computation for key "k". -/
def oneJobState : SFState :=
  { cache := [], jobs := [("k", [0])], delivered := [], computes := ["k"] }

/-- `oneJobState` after caller 1 joins the in-flight job for "k". -/
def twoWaiterState : SFState :=
  { cache := [], jobs := [("k", [1, 0])], delivered := [], computes := ["k"] }

/-- `twoWaiterState` after the computation for "k" fails with "boom":
both waiters received the error, nothing was cached, and the job-table
entry is gone. -/
def errorFinalState : SFState :=
  { cache := []
    jobs := []
    delivered := [(1, "k", .error "boom"), (0, "k", .error "boom")]
    computes := ["k"] }

end SingleFlight

namespace DiskCache

theorem evictLoop_suffix (max : Int) (l : List CacheEntry) : evictLoop max l <:+ l := by
  induction l with
  | nil => exact List.suffix_refl _
  | cons e rest ih =>
    rw [evictLoop]
    split
    · exact List.suffix_refl _
    · exact ih.trans (List.suffix_cons e rest)

theorem evictLoop_total_le (max : Int) (h : 0 ≤ max) (l : List CacheEntry) :
    (totalSize (evictLoop max l) : Int) ≤ max := by
  induction l with
  | nil => simpa [evictLoop, totalSize] using h
  | cons e rest ih =>
    rw [evictLoop]
    split
    · assumption
    · exact ih

theorem suffix_cons_cases {α : Type} {t : List α} {e : α} {l : List α}
    (h : t <:+ e :: l) : t = e :: l ∨ t <:+ l := by
  obtain ⟨s, hs⟩ := h
  cases s with
  | nil => exact Or.inl hs
  | cons x s' =>
    right
    cases hs
    exact ⟨s', rfl⟩

theorem evictLoop_maximal (max : Int) (l : List CacheEntry) :
    ∀ t, t <:+ l → (totalSize t : Int) ≤ max → t.length ≤ (evictLoop max l).length := by
  induction l with
  | nil =>
    intro t ht _
    simpa [evictLoop] using List.IsSuffix.length_le ht
  | cons e rest ih =>
    intro t ht hle
    rw [evictLoop]
    split
    · exact List.IsSuffix.length_le ht
    · rcases suffix_cons_cases ht with rfl | ht'
      · omega
      · exact ih t ht' hle

end DiskCache

namespace SingleFlight

theorem lookup_eq_none_iff {β : Type} {l : List (Key × β)} {k : Key} :
    l.lookup k = none ↔ k ∉ l.map Prod.fst := by
  induction l with
  | nil => simp [List.lookup]
  | cons p rest ih =>
    obtain ⟨k2, v⟩ := p
    by_cases h : k = k2
    · subst h
      simp [List.lookup]
    · have hb : (k == k2) = false := beq_false_of_ne h
      simp [List.lookup, hb, ih, h]

theorem addWaiter_keys (k : Key) (c : Caller) (jobs : List (Key × List Caller)) :
    (addWaiter k c jobs).map Prod.fst = jobs.map Prod.fst := by
  induction jobs with
  | nil => rfl
  | cons p rest ih =>
    obtain ⟨k2, ws⟩ := p
    by_cases h : k2 = k <;> simp [addWaiter, h, ih]

theorem removeJob_sublist (k : Key) (jobs : List (Key × List Caller)) :
    List.Sublist (removeJob k jobs) jobs :=
  List.filter_sublist _

theorem removeJob_lookup (k : Key) (jobs : List (Key × List Caller)) :
    (removeJob k jobs).lookup k = none := by
  induction jobs with
  | nil => rfl
  | cons p rest ih =>
    obtain ⟨k2, ws⟩ := p
    by_cases h : k2 = k
    · subst h
      simpa [removeJob, List.filter] using ih
    · have hb : (k2 != k) = true := by simp [h]
      have hb2 : (k == k2) = false := beq_false_of_ne (Ne.symm h)
      simpa [removeJob, List.filter, hb, List.lookup, hb2] using ih

theorem jobs_keys_nodup {s : SFState} (h : SFReach s) : (s.jobs.map Prod.fst).Nodup := by
  induction h with
  | init => simp [initState]
  | step hr hstep ih =>
    cases hstep with
    | hit hc => exact ih
    | join hj =>
      simpa [addWaiter_keys] using ih
    | start hc hj =>
      exact List.Nodup.cons (lookup_eq_none_iff.mp hj) ih
    | finish hj =>
      exact List.Nodup.sublist (List.Sublist.map _ (removeJob_sublist _ _)) ih

end SingleFlight

/-- C7: for every message string `m`, the client-error value built from
`m` satisfies `Error() = m` and `BadRequest() = true`, so the transport
layer can distinguish client errors (bad request shape) from server
errors (extraction/transport failure). -/
theorem badRequestError_fields (m : String) :
    (SymbolsMain.badRequestError.mk m).goError = m ∧
    (SymbolsMain.badRequestError.mk m).BadRequest = true :=
  ⟨rfl, rfl⟩

/-- C5: startup is fatal — the process never reaches the serving
state — exactly when the configured size limit or worker-process count
is unparsable as an integer, or `service.Start()` fails (per the spec,
an unusable tagging-tool path or cache directory). -/
theorem startup_fatal_iff (sz ps : String) (st : Option String) :
    (SymbolsMain.parseInt64 sz = none ∨ SymbolsMain.parseGoInt ps = none ∨ st.isSome = true) ↔
      (SymbolsMain.mainStartup sz ps st).isFatal = true := by
  unfold SymbolsMain.mainStartup
  cases hsz : SymbolsMain.parseInt64 sz with
  | none => simp [SymbolsMain.StartupResult.isFatal]
  | some mb =>
    cases hps : SymbolsMain.parseGoInt ps with
    | none => simp [SymbolsMain.StartupResult.isFatal]
    | some n =>
      cases st with
      | none => simp [SymbolsMain.StartupResult.isFatal]
      | some e => simp [SymbolsMain.StartupResult.isFatal]

/-- C10: when `STRICT_URL_GEN` is unset (empty), `URLTo` returns a
non-nil URL for every registered route name and parameter list: the
generated URL on success, and a pointer to the zero `url.URL` when URL
generation fails. -/
theorem urlTo_registered_total (r : AppRouter.Router) (name : String)
    (params : List String) (rt : AppRouter.Route) (hreg : r name = some rt) :
    (∀ u, rt.buildURL params = .ok u → AppRouter.URLTo "" r name params = some u) ∧
    (∀ e, rt.buildURL params = .error e →
      AppRouter.URLTo "" r name params = some AppRouter.zeroURL) ∧
    ∃ u, AppRouter.URLTo "" r name params = some u := by
  simp only [AppRouter.URLTo, AppRouter.URLToOrError, hreg]
  refine ⟨fun u hu => by rw [hu], fun e he => by rw [he]; rfl, ?_⟩
  cases hbu : rt.buildURL params with
  | ok u => exact ⟨u, rfl⟩
  | error e => exact ⟨AppRouter.zeroURL, rfl⟩

/-- Witness for C10: both demo routes are registered, one generating a
URL and one failing over to the zero URL. -/
theorem urlTo_registered_total_witness :
    AppRouter.URLTo "" AppRouter.demoRouter "home" [] =
      some ⟨"https", "example.com", "/", ""⟩ ∧
    AppRouter.URLTo "" AppRouter.demoRouter "broken" [] = some AppRouter.zeroURL := by
  constructor
  · exact (urlTo_registered_total AppRouter.demoRouter "home" []
      ⟨fun _ => .ok ⟨"https", "example.com", "/", ""⟩⟩ rfl).1 _ rfl
  · exact (urlTo_registered_total AppRouter.demoRouter "broken" []
      ⟨fun _ => .error "generation failed"⟩ rfl).2.1 "generation failed" rfl

theorem wrap64_eq_self {n : Int} (h1 : -(2 ^ 63) ≤ n) (h2 : n < 2 ^ 63) :
    SymbolsMain.wrap64 n = n := by
  simp only [SymbolsMain.wrap64]
  split_ifs <;> omega

/-- Counterexample for C4: the claim "startup sets the maximum cache
size in bytes to exactly m × 1,000,000" fails at
m = 9223372036854775807 (the largest value `strconv.ParseInt` accepts):
Go evaluates `mb * 1000 * 1000` in wrapping signed 64-bit arithmetic,
so the stored bound is not m × 1,000,000. -/
theorem maxCacheSize_exact_product_false :
    SymbolsMain.parseInt64 "9223372036854775807" = some 9223372036854775807 ∧
    SymbolsMain.maxCacheSizeBytes "9223372036854775807" ≠
      some (9223372036854775807 * 1000000) := by
  constructor
  · rfl
  · decide

/-- C4 (amended): for every configured cache size string that parses as
a base-10 64-bit integer m, startup sets the maximum cache size in
bytes to m × 1,000,000 computed in wrapping signed 64-bit arithmetic —
equal to exactly m × 1,000,000 whenever that product is representable
in 64 bits; the default configuration is "0" (bound 0); and for every
zero or negative m whose product is representable, the resulting bound
is non-positive, so the size bound is disabled (eviction is a no-op,
unbounded cache). -/
theorem maxCacheSize_amended (s : String) (m : Int)
    (h : SymbolsMain.parseInt64 s = some m) :
    SymbolsMain.maxCacheSizeBytes s =
      some (SymbolsMain.int64Mul (SymbolsMain.int64Mul m 1000) 1000) ∧
    (-(2 ^ 63) ≤ m * 1000000 → m * 1000000 < 2 ^ 63 →
      SymbolsMain.maxCacheSizeBytes s = some (m * 1000000)) ∧
    SymbolsMain.cacheSizeMBDefault = "0" ∧
    SymbolsMain.maxCacheSizeBytes SymbolsMain.cacheSizeMBDefault = some 0 ∧
    (m ≤ 0 → -(2 ^ 63) ≤ m * 1000000 →
      ∀ es, DiskCache.runEviction (SymbolsMain.int64Mul (SymbolsMain.int64Mul m 1000) 1000) es = es) := by
  have hmul : -(2 ^ 63) ≤ m * 1000000 → m * 1000000 < 2 ^ 63 →
      SymbolsMain.int64Mul (SymbolsMain.int64Mul m 1000) 1000 = m * 1000000 := by
    intro h1 h2
    have ha : SymbolsMain.int64Mul m 1000 = m * 1000 := by
      unfold SymbolsMain.int64Mul
      exact wrap64_eq_self (by omega) (by omega)
    rw [ha]
    unfold SymbolsMain.int64Mul
    have : m * 1000 * 1000 = m * 1000000 := by ring
    rw [this]
    exact wrap64_eq_self h1 h2
  refine ⟨?_, ?_, rfl, by decide, ?_⟩
  · simp [SymbolsMain.maxCacheSizeBytes, h]
  · intro h1 h2
    simp [SymbolsMain.maxCacheSizeBytes, h, hmul h1 h2]
  · intro hm h1 es
    have h2 : m * 1000000 < 2 ^ 63 := by omega
    rw [hmul h1 h2]
    have : m * 1000000 ≤ 0 := by omega
    simp [DiskCache.runEviction, this]

/-- Witness for C4 (amended) at the parsable configuration "5". -/
theorem maxCacheSize_amended_witness :
    SymbolsMain.maxCacheSizeBytes "5" =
      some (SymbolsMain.int64Mul (SymbolsMain.int64Mul 5 1000) 1000) ∧
    (-(2 ^ 63) ≤ (5 : Int) * 1000000 → (5 : Int) * 1000000 < 2 ^ 63 →
      SymbolsMain.maxCacheSizeBytes "5" = some ((5 : Int) * 1000000)) ∧
    SymbolsMain.cacheSizeMBDefault = "0" ∧
    SymbolsMain.maxCacheSizeBytes SymbolsMain.cacheSizeMBDefault = some 0 ∧
    ((5 : Int) ≤ 0 → -(2 ^ 63) ≤ (5 : Int) * 1000000 →
      ∀ es, DiskCache.runEviction
        (SymbolsMain.int64Mul (SymbolsMain.int64Mul 5 1000) 1000) es = es) :=
  maxCacheSize_amended "5" 5 (by decide)

/-- C2: when the configured maximum is positive, a completed eviction
pass leaves the total size of all cache entries at most the maximum;
the kept entries are a suffix of the last-access-ascending order — so
every deleted entry is at most as recently accessed as every kept
entry — and the pass deletes no more than needed: any suffix of the
ordered entries already within the bound is no longer than what is
kept. A write does not evict inline, so between a write and the next
pass the total may transiently exceed the maximum (witnessed by an
entry larger than the bound). -/
theorem eviction_bound_lru (max : Int) (es : List DiskCache.CacheEntry) (h : 0 < max) :
    (DiskCache.totalSize (DiskCache.runEviction max es) : Int) ≤ max ∧
    (∃ deleted, deleted ++ DiskCache.runEviction max es = DiskCache.sortByAccess es ∧
      (∀ d ∈ deleted, ∀ kept ∈ DiskCache.runEviction max es,
        d.lastAccess ≤ kept.lastAccess) ∧
      (∀ t, t <:+ DiskCache.sortByAccess es → (DiskCache.totalSize t : Int) ≤ max →
        t.length ≤ (DiskCache.runEviction max es).length)) ∧
    (∀ e past, DiskCache.totalSize (DiskCache.cacheWrite e past) =
      e.size + DiskCache.totalSize past) ∧
    (∃ e, max < (DiskCache.totalSize (DiskCache.cacheWrite e []) : Int)) := by
  have hnot : ¬ max ≤ 0 := not_le.mpr h
  have hrun : DiskCache.runEviction max es =
      DiskCache.evictLoop max (DiskCache.sortByAccess es) := by
    simp [DiskCache.runEviction, hnot]
  refine ⟨?_, ?_, ?_, ?_⟩
  · rw [hrun]
    exact DiskCache.evictLoop_total_le max h.le _
  · rw [hrun]
    obtain ⟨deleted, hdel⟩ := DiskCache.evictLoop_suffix max (DiskCache.sortByAccess es)
    refine ⟨deleted, hdel, ?_, ?_⟩
    · have hsorted : List.Sorted DiskCache.lruLE (DiskCache.sortByAccess es) :=
        List.sorted_insertionSort _ _
      rw [← hdel] at hsorted
      intro d hd kept hk
      exact (List.pairwise_append.mp hsorted).2.2 d hd kept hk
    · exact DiskCache.evictLoop_maximal max _
  · intro e past
    simp [DiskCache.cacheWrite, DiskCache.totalSize]
  · refine ⟨⟨"", max.toNat + 1, 0⟩, ?_⟩
    have htn : ((max.toNat : Int)) = max := Int.toNat_of_nonneg h.le
    simp only [DiskCache.cacheWrite, DiskCache.totalSize, List.map_cons, List.map_nil,
      List.sum_cons, List.sum_nil]
    omega

/-- Witness for C2 at maximum 10 with two entries of size 6: the
less-recently-accessed entry is evicted and the total drops to 6. -/
theorem eviction_bound_lru_witness :
    (DiskCache.totalSize
      (DiskCache.runEviction 10 [⟨"a", 6, 2⟩, ⟨"b", 6, 1⟩]) : Int) ≤ 10 :=
  (eviction_bound_lru 10 [⟨"a", 6, 2⟩, ⟨"b", 6, 1⟩] (by decide)).1

/-- C3: if the Worker Protocol Adapter finds a file of the snapshot
binary or unparseable, `parse` yields an empty SymbolList rather than
an error, and the extraction of the snapshot still succeeds: the
result is the in-order concatenation of every file's parsed symbols,
with the unparseable file contributing nothing and every parseable
file contributing its complete symbol list, and no error surfaced. -/
theorem unparseable_file_isolated (files : List Extraction.SourceFile)
    (f : Extraction.SourceFile) (_hf : f ∈ files)
    (hout : f.outcome = .unparseable) :
    ∃ l, Extraction.extract (.ok files) = .ok l ∧
      Extraction.parseFile f.outcome = [] ∧
      l = (Extraction.sortFiles files).flatMap (fun g => Extraction.parseFile g.outcome) ∧
      (∀ g ∈ files, ∀ syms, g.outcome = .symbols syms →
        ∃ pre post, l = pre ++ (syms ++ post)) := by
  refine ⟨_, rfl, by rw [hout]; rfl, rfl, ?_⟩
  intro g hg syms hsyms
  have hg2 : g ∈ Extraction.sortFiles files := by
    simpa [Extraction.sortFiles] using hg
  obtain ⟨l1, l2, hsplit⟩ := List.append_of_mem hg2
  refine ⟨l1.flatMap (fun g2 => Extraction.parseFile g2.outcome),
    l2.flatMap (fun g2 => Extraction.parseFile g2.outcome), ?_⟩
  rw [hsplit]
  simp [hsyms, Extraction.parseFile]

/-- Witness for C3: in the three-file demo snapshot, `b.go` is
unparseable, yet extraction succeeds with the other two files'
symbols. -/
theorem unparseable_file_isolated_witness :
    ∃ l, Extraction.extract (.ok Extraction.demoFiles) = .ok l ∧
      Extraction.parseFile (Extraction.FileOutcome.unparseable) = [] ∧
      l = (Extraction.sortFiles Extraction.demoFiles).flatMap
        (fun g => Extraction.parseFile g.outcome) ∧
      (∀ g ∈ Extraction.demoFiles, ∀ syms, g.outcome = .symbols syms →
        ∃ pre post, l = pre ++ (syms ++ post)) :=
  unparseable_file_isolated Extraction.demoFiles ⟨"b.go", .unparseable⟩
    (by simp [Extraction.demoFiles]) rfl

/-- C1: in every reachable state of the single-flight protocol, at
most one in-flight ExtractionJob exists per SnapshotKey (the job
table's keys are duplicate-free); a `computeFn` invocation (`start`)
for a key can only happen when that key has no in-flight job and no
cached entry, and it is the only transition that extends the
invocation log; and when the single computation for a key finishes,
every one of its N waiters receives that same one outcome (the same
result or the same error). -/
theorem single_flight_exactly_once (s : SingleFlight.SFState)
    (h : SingleFlight.SFReach s) :
    (s.jobs.map Prod.fst).Nodup ∧
    (∀ c k s2, SingleFlight.SFStep s (.start c k) s2 →
      s.jobs.lookup k = none ∧ s.cache.lookup k = none ∧
        s2.computes = k :: s.computes) ∧
    (∀ e s2, SingleFlight.SFStep s e s2 →
      ∀ k, (∀ c, e ≠ SingleFlight.SFEvent.start c k) →
        s2.computes = s.computes ∨
          ∃ k2, k2 ≠ k ∧ s2.computes = k2 :: s.computes) ∧
    (∀ k o ws s2, SingleFlight.SFStep s (.finish k o) s2 →
      s.jobs.lookup k = some ws → ∀ c ∈ ws, (c, k, o) ∈ s2.delivered) := by
  refine ⟨SingleFlight.jobs_keys_nodup h, ?_, ?_, ?_⟩
  · intro c k s2 hstep
    cases hstep with
    | start hc hj => exact ⟨hj, hc, rfl⟩
  · intro e s2 hstep k hne
    cases hstep with
    | hit _ => exact Or.inl rfl
    | join _ => exact Or.inl rfl
    | finish _ => exact Or.inl rfl
    | start hc hj =>
      rename_i c2 k2
      refine Or.inr ⟨k2, ?_, rfl⟩
      intro heq
      exact hne c2 (by rw [heq])
  · intro k o ws s2 hstep hws
    cases hstep with
    | finish hj =>
      rw [hws] at hj
      cases hj
      intro c hc
      exact List.mem_append_left _ (List.mem_map.mpr ⟨c, hc, rfl⟩)

/-- Witness for C1 in the reachable state where caller 0 has started
the one computation for key "k". -/
theorem single_flight_exactly_once_witness :
    ((SingleFlight.oneJobState).jobs.map Prod.fst).Nodup :=
  (single_flight_exactly_once SingleFlight.oneJobState
    (SingleFlight.SFReach.step SingleFlight.SFReach.init
      (SingleFlight.SFStep.start rfl rfl))).1

/-- C6: when the computation for a key finishes with an error, the
cache is unchanged (the error is not written or indexed), the job
entry for the key is gone, every waiter on that key receives the same
error, and — the key still being uncached — a subsequent request for
it can take the `start` transition, triggering a fresh computation. -/
theorem compute_error_not_cached (s : SingleFlight.SFState)
    (_h : SingleFlight.SFReach s) (k : SingleFlight.Key) (emsg : String)
    (ws : List SingleFlight.Caller) (s2 : SingleFlight.SFState)
    (hstep : SingleFlight.SFStep s (.finish k (.error emsg)) s2)
    (hws : s.jobs.lookup k = some ws) :
    s2.cache = s.cache ∧
    s2.jobs.lookup k = none ∧
    (∀ c ∈ ws, (c, k, Except.error emsg) ∈ s2.delivered) ∧
    (s.cache.lookup k = none → ∀ c2 : SingleFlight.Caller,
      SingleFlight.SFStep s2 (.start c2 k)
        { s2 with
            jobs := (k, [c2]) :: s2.jobs
            computes := k :: s2.computes }) := by
  cases hstep with
  | finish hj =>
    rw [hws] at hj
    cases hj
    refine ⟨rfl, SingleFlight.removeJob_lookup k s.jobs, ?_, ?_⟩
    · intro c hc
      exact List.mem_append_left _ (List.mem_map.mpr ⟨c, hc, rfl⟩)
    · intro hcache c2
      exact SingleFlight.SFStep.start hcache (SingleFlight.removeJob_lookup k s.jobs)

/-- Witness for C6: both waiters of the failed computation for "k"
receive the error, nothing is cached, and a fresh `start` for "k" is
enabled. -/
theorem compute_error_not_cached_witness :
    SingleFlight.errorFinalState.cache = SingleFlight.twoWaiterState.cache ∧
    SingleFlight.errorFinalState.jobs.lookup "k" = none ∧
    (∀ c ∈ [1, 0], (c, "k", Except.error "boom") ∈
      SingleFlight.errorFinalState.delivered) ∧
    (SingleFlight.twoWaiterState.cache.lookup "k" = none →
      ∀ c2 : SingleFlight.Caller,
        SingleFlight.SFStep SingleFlight.errorFinalState (.start c2 "k")
          { SingleFlight.errorFinalState with
              jobs := ("k", [c2]) :: SingleFlight.errorFinalState.jobs
              computes := "k" :: SingleFlight.errorFinalState.computes }) :=
  compute_error_not_cached SingleFlight.twoWaiterState
    (SingleFlight.SFReach.step
      (SingleFlight.SFReach.step SingleFlight.SFReach.init
        (SingleFlight.SFStep.start rfl rfl))
      (SingleFlight.SFStep.join
        (by decide : List.lookup "k" SingleFlight.oneJobState.jobs = some [0])))
    "k" "boom" [1, 0] SingleFlight.errorFinalState
    (SingleFlight.SFStep.finish
      (by decide : List.lookup "k" SingleFlight.twoWaiterState.jobs = some [1, 0]))
    (by decide)

theorem string_append_paren_ne_empty (a : String) : a ++ ")" ≠ "" := by
  intro hcontra
  have hlen := congrArg String.length hcontra
  rw [String.length_append] at hlen
  have h1 : (")" : String).length = 1 := by decide
  have h2 : ("" : String).length = 0 := by decide
  omega

theorem runCommands_spec (run : List String → ExecServer.RunOutcome)
    (argsRepr : List String → String) (cmds : List (List String)) :
    (ExecServer.runCommands run argsRepr cmds).length = cmds.length ∧
    ∀ i (hi : i < cmds.length)
        (hi2 : i < (ExecServer.runCommands run argsRepr cmds).length),
      (((ExecServer.runCommands run argsRepr cmds)[i]).ok = true ↔
        (run cmds[i]).err = none) ∧
      ((ExecServer.runCommands run argsRepr cmds)[i]).combinedOutput =
        (run cmds[i]).output ∧
      (((ExecServer.runCommands run argsRepr cmds)[i]).ok = true →
        ((ExecServer.runCommands run argsRepr cmds)[i]).error = "") ∧
      (((ExecServer.runCommands run argsRepr cmds)[i]).ok = false →
        ((ExecServer.runCommands run argsRepr cmds)[i]).error ≠ "") := by
  refine ⟨by simp [ExecServer.runCommands], ?_⟩
  intro i hi hi2
  simp only [ExecServer.runCommands, List.getElem_map]
  cases hrun : (run cmds[i]).err with
  | none => simp [hrun]
  | some e =>
    refine ⟨by simp [hrun], by simp, by simp [hrun], fun _ => ?_⟩
    simp only [hrun]
    exact string_append_paren_ne_empty _

theorem handler_ok_inv (method : String)
    (paramsParse : Except String ExecServer.Params)
    (bodyParse : Except String ExecServer.Payload) (setup : Except String Unit)
    (run : List String → ExecServer.RunOutcome) (argsRepr : List String → String)
    (readFile : String → ExecServer.ReadOutcome) (res : ExecServer.ExecResult)
    (hok : ExecServer.handler method paramsParse bodyParse setup run argsRepr readFile =
      .ok res) :
    ∃ params, paramsParse = .ok params ∧
      res.commands = ExecServer.runCommands run argsRepr params.commands := by
  cases paramsParse with
  | error e =>
    exfalso
    simp only [ExecServer.handler] at hok
    split at hok
    · cases hok
    · cases hok
  | ok params =>
    refine ⟨params, rfl, ?_⟩
    simp only [ExecServer.handler] at hok
    split at hok
    · cases hok
    · split at hok
      · cases hok
      · split at hok
        · cases hok
        · split at hok
          · cases hok
          · split at hok
            · cases hok
            · injection hok with hok2
              rw [← hok2]

/-- C8: for every request the exec-server handler accepts (it returns
a JSON result rather than an HTTP error), the result's commands array
has exactly one entry per requested command, in request order; entry i
has `Ok = true` iff running command i produced no error,
`CombinedOutput` equal to that command's combined output, and `Error`
non-empty exactly when `Ok` is false. -/
theorem exec_handler_command_results (method : String)
    (paramsParse : Except String ExecServer.Params)
    (bodyParse : Except String ExecServer.Payload) (setup : Except String Unit)
    (run : List String → ExecServer.RunOutcome) (argsRepr : List String → String)
    (readFile : String → ExecServer.ReadOutcome) (res : ExecServer.ExecResult)
    (hok : ExecServer.handler method paramsParse bodyParse setup run argsRepr readFile =
      .ok res) :
    ∃ params, paramsParse = .ok params ∧
      res.commands.length = params.commands.length ∧
      ∀ i (hi : i < params.commands.length) (hi2 : i < res.commands.length),
        ((res.commands[i]).ok = true ↔ (run params.commands[i]).err = none) ∧
        (res.commands[i]).combinedOutput = (run params.commands[i]).output ∧
        ((res.commands[i]).ok = true → (res.commands[i]).error = "") ∧
        ((res.commands[i]).ok = false → (res.commands[i]).error ≠ "") := by
  obtain ⟨params, hpp, hcmds⟩ :=
    handler_ok_inv method paramsParse bodyParse setup run argsRepr readFile res hok
  obtain ⟨hlen, hidx⟩ := runCommands_spec run argsRepr params.commands
  refine ⟨params, hpp, by rw [hcmds]; exact hlen, ?_⟩
  intro i hi hi2
  have hi3 : i < (ExecServer.runCommands run argsRepr params.commands).length := by
    rw [← hcmds]; exact hi2
  have := hidx i hi hi3
  simpa [hcmds] using this

/-- Witness for C8: a single successful command yields a one-entry
commands array with `Ok = true`, the command output, and empty
`Error`. -/
theorem exec_handler_command_results_witness :
    ∃ params, (Except.ok ExecServer.demoParams : Except String ExecServer.Params) =
        .ok params ∧
      ExecServer.demoResult.commands.length = params.commands.length ∧
      ∀ i (hi : i < params.commands.length)
          (hi2 : i < ExecServer.demoResult.commands.length),
        ((ExecServer.demoResult.commands[i]).ok = true ↔
          (ExecServer.demoRun params.commands[i]).err = none) ∧
        (ExecServer.demoResult.commands[i]).combinedOutput =
          (ExecServer.demoRun params.commands[i]).output ∧
        ((ExecServer.demoResult.commands[i]).ok = true →
          (ExecServer.demoResult.commands[i]).error = "") ∧
        ((ExecServer.demoResult.commands[i]).ok = false →
          (ExecServer.demoResult.commands[i]).error ≠ "") :=
  exec_handler_command_results "GET" (.ok ExecServer.demoParams) (.error "unused")
    (.ok ()) ExecServer.demoRun ExecServer.demoArgsRepr ExecServer.demoReadFile
    ExecServer.demoResult rfl

/-- C9: the exec-server handler rejects with an HTTP error status —
returning the same error for every possible command-run function, so
no command is executed — in each of these cases: status 405 when the
method is neither GET nor POST; status 400 when the params query
parameter is not valid JSON, when a POST body fails to decode, and
when the decoded command list is empty. -/
theorem exec_handler_rejects (method : String)
    (paramsParse : Except String ExecServer.Params)
    (bodyParse : Except String ExecServer.Payload) (setup : Except String Unit)
    (run : List String → ExecServer.RunOutcome) (argsRepr : List String → String)
    (readFile : String → ExecServer.ReadOutcome) :
    (method ≠ "GET" → method ≠ "POST" →
      ExecServer.handler method paramsParse bodyParse setup run argsRepr readFile =
        .error (405, "")) ∧
    (∀ e, (method = "GET" ∨ method = "POST") → paramsParse = .error e →
      ExecServer.handler method paramsParse bodyParse setup run argsRepr readFile =
        .error (400, e)) ∧
    (∀ e params, paramsParse = .ok params → method = "POST" → bodyParse = .error e →
      ExecServer.handler method paramsParse bodyParse setup run argsRepr readFile =
        .error (400, e)) ∧
    (∀ params, (method = "GET" ∨ method = "POST") → paramsParse = .ok params →
      (method = "POST" → ∃ p, bodyParse = .ok p) → params.commands = [] →
      ExecServer.handler method paramsParse bodyParse setup run argsRepr readFile =
        .error (400, "invalid params")) := by
  refine ⟨?_, ?_, ?_, ?_⟩
  · intro hg hp
    simp [ExecServer.handler, hg, hp]
  · intro e hm hpp
    subst hpp
    rcases hm with hm | hm <;> subst hm <;> simp [ExecServer.handler]
  · intro e params hpp hm hbp
    subst hpp
    subst hm
    subst hbp
    simp [ExecServer.handler, Except.map]
  · intro params hm hpp hbody hempty
    subst hpp
    rcases hm with hm | hm <;> subst hm
    · simp [ExecServer.handler, hempty]
    · obtain ⟨p, hp⟩ := hbody rfl
      subst hp
      simp [ExecServer.handler, hempty, Except.map]

/-- Witness for C9: one concrete request per rejection case — bad
method, bad params JSON, bad POST body, and an empty command list. -/
theorem exec_handler_rejects_witness :
    ExecServer.handler "PUT" (.error "x") (.error "y") (.ok ())
      ExecServer.demoRun ExecServer.demoArgsRepr ExecServer.demoReadFile =
        .error (405, "") ∧
    ExecServer.handler "GET" (.error "bad json") (.error "y") (.ok ())
      ExecServer.demoRun ExecServer.demoArgsRepr ExecServer.demoReadFile =
        .error (400, "bad json") ∧
    ExecServer.handler "POST" (.ok ExecServer.demoParams) (.error "bad body") (.ok ())
      ExecServer.demoRun ExecServer.demoArgsRepr ExecServer.demoReadFile =
        .error (400, "bad body") ∧
    ExecServer.handler "GET" (.ok ⟨"", "", [], []⟩) (.error "y") (.ok ())
      ExecServer.demoRun ExecServer.demoArgsRepr ExecServer.demoReadFile =
        .error (400, "invalid params") := by
  refine ⟨?_, ?_, ?_, ?_⟩
  · exact (exec_handler_rejects "PUT" (.error "x") (.error "y") (.ok ())
      ExecServer.demoRun ExecServer.demoArgsRepr ExecServer.demoReadFile).1
      (by decide) (by decide)
  · exact (exec_handler_rejects "GET" (.error "bad json") (.error "y") (.ok ())
      ExecServer.demoRun ExecServer.demoArgsRepr ExecServer.demoReadFile).2.1
      "bad json" (Or.inl rfl) rfl
  · exact (exec_handler_rejects "POST" (.ok ExecServer.demoParams) (.error "bad body")
      (.ok ()) ExecServer.demoRun ExecServer.demoArgsRepr ExecServer.demoReadFile).2.2.1
      "bad body" ExecServer.demoParams rfl rfl rfl
  · exact (exec_handler_rejects "GET" (.ok ⟨"", "", [], []⟩) (.error "y") (.ok ())
      ExecServer.demoRun ExecServer.demoArgsRepr ExecServer.demoReadFile).2.2.2
      ⟨"", "", [], []⟩ (Or.inl rfl) rfl (fun h => absurd h (by decide)) rfl
